import Mathlib

/-!
Verification of the `fractal_name` pipeline (src/fractal_name.py).

The program maps a name to a fractal image: letters become numbers
(`name_to_numbers`), the numbers become scalar parameters, a complex grid
is iterated (`generate_fractal`), and a 9-stop color gradient is produced
(`dynamic_color_map`).  This file embeds those functions shallowly:

* Python strings are modelled as `List Char`; Python `int` as `ℤ`
  (Python `%` with a positive divisor agrees with `Int.emod`);
* IEEE-754 `float`/`complex` arithmetic is idealised over `ℝ`/`ℂ`
  (exact real semantics of the same formulas);
* the plotting / PNG backend, directory creation and the interactive
  prompt loop are out of scope (opaque library calls), so
  `dynamic_color_map` is modelled up to its `gradient_colors` list, the
  input actually built by the function before the opaque
  `LinearSegmentedColormap.from_list` call.

Definitions are translated from the source; the `spec...` definitions
restate the natural-language specification and are proved equal to the
source-side definitions.
-/

namespace FractalName

/-! ## Character model

Python's `str.isalpha` / `str.upper` are Unicode operations.  They are
modelled here at the code-point level, faithfully on code points below
256 (ASCII and the Latin-1 supplement):

* Unicode letters below 256 are exactly A–Z, a–z, ª (170), µ (181),
  º (186) and À–ÿ (192–255) except × (215) and ÷ (247);
* `str.upper` maps a–z and à–þ (224–254, except ÷) down by 32; on the
  remaining code points below 256 whose uppercase mapping is a single
  unchanged character it is the identity.  (ß, µ and ÿ, whose uppercase
  forms are not a single Latin-1 character, are not needed by any theorem
  below.)

Code points ≥ 256 are modelled as non-alphabetic; theorems that quantify
over arbitrary names therefore carry an explicit `Latin1`/ASCII bound on
their characters, restricting them to the faithfully modelled range.
-/

/-- Python `str.isalpha` on a single code point, faithful below 256. -/
def pyIsAlphaNat (n : ℕ) : Bool :=
  (65 ≤ n && n ≤ 90) || (97 ≤ n && n ≤ 122) ||
    n == 170 || n == 181 || n == 186 ||
    (192 ≤ n && n ≤ 255 && n != 215 && n != 247)

/-- Python `char.isalpha()` for a one-character string. -/
def pyIsAlpha (c : Char) : Bool :=
  pyIsAlphaNat c.toNat

/-- Code point of `letter.upper()`: the single-character uppercase
mapping of Latin-1, applied to the code point. -/
def pyUpperNat (n : ℕ) : ℕ :=
  if 97 ≤ n ∧ n ≤ 122 then n - 32
  else if 224 ≤ n ∧ n ≤ 254 ∧ n ≠ 247 then n - 32
  else n

/-- All characters of a name lie below code point 256, the range on which
the character model is faithful to Python. -/
def Latin1 (name : List Char) : Prop :=
  ∀ c ∈ name, c.toNat < 256

/-- All characters of a name are ASCII. -/
def ASCIIName (name : List Char) : Prop :=
  ∀ c ∈ name, c.toNat ≤ 127

instance (name : List Char) : Decidable (Latin1 name) :=
  List.decidableBAll _ name

instance (name : List Char) : Decidable (ASCIIName name) :=
  List.decidableBAll _ name

/-! ## Name Encoder (source lines 7–14) -/

/-- `letter_to_number` (source lines 7–10):
`ord(letter.upper()) - ord('A') + 1`, with `ord('A') = 65`. -/
def letter_to_number (c : Char) : ℤ :=
  (pyUpperNat c.toNat : ℤ) - 65 + 1

/-- `name_to_numbers` (source lines 12–14):
`[letter_to_number(char) for char in name if char.isalpha()]`. -/
def name_to_numbers (name : List Char) : List ℤ :=
  (name.filter pyIsAlpha).map letter_to_number

/-! ## Parameter Derivation (source lines 16–29) -/

/-- The fallback of source lines 18–19: `if not name_numbers:
name_numbers = [1]`.  (In Python this rebinds the local parameter only;
the caller's list is untouched.) -/
def effectiveNums (nums : List ℤ) : List ℤ :=
  if nums = [] then [1] else nums

/-- Python extended slice `l[::2]`: every second element, starting at
index 0. -/
def everyOther : List ℤ → List ℤ
  | [] => []
  | [a] => [a]
  | a :: _ :: t => a :: everyOther t

/-- `scale_x = sum(name_numbers) % 10 + 1` (source line 22). -/
def scale_x (nums : List ℤ) : ℤ :=
  nums.sum % 10 + 1

/-- `scale_y = (sum(name_numbers[::-1]) % 10 + 1) * 1.5` (source line 23). -/
noncomputable def scale_y (nums : List ℤ) : ℝ :=
  ((nums.reverse.sum % 10 + 1 : ℤ) : ℝ) * 1.5

/-- `c_real = sum(name_numbers[::2]) / len(name_numbers)` (source line 24). -/
noncomputable def c_real (nums : List ℤ) : ℝ :=
  ((everyOther nums).sum : ℝ) / (nums.length : ℝ)

/-- `c_imag = sum(name_numbers[1::2]) / len(name_numbers)` (source line 25):
`l[1::2]` is every second element starting at index 1. -/
noncomputable def c_imag (nums : List ℤ) : ℝ :=
  ((everyOther (nums.drop 1)).sum : ℝ) / (nums.length : ℝ)

/-- `noise_factor = (sum(name_numbers) % 5) / 100` (source line 28). -/
noncomputable def noise_factor (nums : List ℤ) : ℝ :=
  ((nums.sum % 5 : ℤ) : ℝ) / 100

/-- `extra_term = np.sin(sum(name_numbers) % 50)` (source line 29). -/
noncomputable def extra_term (nums : List ℤ) : ℝ :=
  Real.sin ((nums.sum % 50 : ℤ) : ℝ)

/-- The Field Parameters tuple of the specification's data model. -/
structure FieldParams where
  scale_x : ℤ
  scale_y : ℝ
  c_real : ℝ
  c_imag : ℝ
  noise_factor : ℝ
  extra_term : ℝ

/-- Parameter Derivation: source lines 22–29 bundled. -/
noncomputable def deriveParams (nums : List ℤ) : FieldParams :=
  ⟨scale_x nums, scale_y nums, c_real nums, c_imag nums,
    noise_factor nums, extra_term nums⟩

/-! ## Specification-side index sums

The spec describes `c_real`/`c_imag` as sums over even/odd 0-based
indices; the source uses the slices `l[::2]` and `l[1::2]`. -/

/-- Sum of the values at even 0-based indices (spec wording). -/
def sumEvenIdx (l : List ℤ) : ℤ :=
  ∑ i in Finset.range l.length, if i % 2 = 0 then l.getD i 0 else 0

/-- Sum of the values at odd 0-based indices (spec wording). -/
def sumOddIdx (l : List ℤ) : ℤ :=
  ∑ i in Finset.range l.length, if i % 2 = 1 then l.getD i 0 else 0

theorem sumEvenIdx_cons_cons (a b : ℤ) (t : List ℤ) :
    sumEvenIdx (a :: b :: t) = a + sumEvenIdx t := by
  have hf : ∀ i : ℕ,
      (if (i + 1 + 1) % 2 = 0 then (a :: b :: t).getD (i + 1 + 1) 0 else 0) =
        (if i % 2 = 0 then t.getD i 0 else 0) := by
    intro i
    rw [List.getD_cons_succ, List.getD_cons_succ]
    by_cases h : i % 2 = 0
    · rw [if_pos (by omega : (i + 1 + 1) % 2 = 0), if_pos h]
    · rw [if_neg (by omega : ¬(i + 1 + 1) % 2 = 0), if_neg h]
  simp only [sumEvenIdx, List.length_cons]
  rw [Finset.sum_range_succ', Finset.sum_range_succ']
  simp only [hf]
  norm_num [List.getD_cons_zero, add_comm]

theorem sumOddIdx_cons (a : ℤ) (t : List ℤ) :
    sumOddIdx (a :: t) = sumEvenIdx t := by
  have hf : ∀ i : ℕ,
      (if (i + 1) % 2 = 1 then (a :: t).getD (i + 1) 0 else 0) =
        (if i % 2 = 0 then t.getD i 0 else 0) := by
    intro i
    rw [List.getD_cons_succ]
    by_cases h : i % 2 = 0
    · rw [if_pos (by omega : (i + 1) % 2 = 1), if_pos h]
    · rw [if_neg (by omega : ¬(i + 1) % 2 = 1), if_neg h]
  simp only [sumOddIdx, sumEvenIdx, List.length_cons]
  rw [Finset.sum_range_succ']
  simp only [hf]
  norm_num

theorem everyOther_sum : ∀ l : List ℤ, (everyOther l).sum = sumEvenIdx l
  | [] => by simp [everyOther, sumEvenIdx]
  | [a] => by simp [everyOther, sumEvenIdx]
  | a :: b :: t => by
    rw [everyOther, List.sum_cons, everyOther_sum t, sumEvenIdx_cons_cons]

theorem everyOther_drop_one_sum (l : List ℤ) :
    (everyOther (l.drop 1)).sum = sumOddIdx l := by
  cases l with
  | nil => simp [everyOther, sumOddIdx]
  | cons a t => rw [List.drop_one, List.tail_cons, everyOther_sum, sumOddIdx_cons]

/-- C3: Parameter Derivation computes the spec's formulas: the even/odd
slice sums equal the even/odd index sums, a one-element sequence has odd
sum 0, and for the sequence `[1, 2]` (name "AB") the parameters are
`scale_x = 4`, `scale_y = 6.0`, `c_real = 0.5`, `c_imag = 1.0`,
`noise_factor = 0.03`, `extra_term = sin 3`. -/
theorem param_derivation_correct :
    (∀ nums : List ℤ,
        c_real nums = (sumEvenIdx nums : ℝ) / (nums.length : ℝ) ∧
        c_imag nums = (sumOddIdx nums : ℝ) / (nums.length : ℝ) ∧
        scale_x nums = nums.sum % 10 + 1 ∧
        noise_factor nums = ((nums.sum % 5 : ℤ) : ℝ) / 100 ∧
        extra_term nums = Real.sin ((nums.sum % 50 : ℤ) : ℝ)) ∧
    (∀ a : ℤ, sumOddIdx [a] = 0) ∧
    scale_x [1, 2] = 4 ∧
    scale_y [1, 2] = 6.0 ∧
    c_real [1, 2] = 0.5 ∧
    c_imag [1, 2] = 1.0 ∧
    noise_factor [1, 2] = 0.03 ∧
    extra_term [1, 2] = Real.sin 3 := by
  refine ⟨fun nums => ⟨?_, ?_, rfl, rfl, rfl⟩, ?_, ?_, ?_, ?_, ?_, ?_, ?_⟩
  · rw [c_real, everyOther_sum]
  · rw [c_imag, everyOther_drop_one_sum]
  · intro a
    simp [sumOddIdx]
  · rfl
  · show ((([1, 2] : List ℤ).reverse.sum % 10 + 1 : ℤ) : ℝ) * 1.5 = 6.0
    norm_num
  · show ((everyOther [1, 2]).sum : ℝ) / (([1, 2] : List ℤ).length : ℝ) = 0.5
    norm_num [everyOther]
  · show ((everyOther (([1, 2] : List ℤ).drop 1)).sum : ℝ) /
      (([1, 2] : List ℤ).length : ℝ) = 1.0
    norm_num [everyOther]
  · show ((([1, 2] : List ℤ).sum % 5 : ℤ) : ℝ) / 100 = 0.03
    norm_num
  · show Real.sin ((([1, 2] : List ℤ).sum % 50 : ℤ) : ℝ) = Real.sin 3
    norm_num

/-! ## Color Gradient Builder seed (source line 53) and `main` dataflow
(source lines 99–104) -/

/-- `base_color = sum(name_numbers) % 256` (source line 53). -/
def base_color (nums : List ℤ) : ℤ :=
  nums.sum % 256

/-- The list bound to `name_numbers` in `main` (source line 99). -/
def mainNumbers (name : List Char) : List ℤ :=
  name_to_numbers name

/-- The argument `main` passes to `dynamic_color_map` (source line 104).
Python rebinds `name_numbers` only inside `generate_fractal`
(lines 18–19), a local rebinding that cannot affect the caller, so line
104 still passes the list bound at line 99. -/
def mainCmapArg (name : List Char) : List ℤ :=
  mainNumbers name

/-- C4 (amended): on ASCII input, every encoded value lies in [1, 26];
non-alphabetic characters are skipped and alphabetic ones are mapped in
input order; `letter_to_number` sends a/A to 1 and z to 26. -/
theorem name_encoder_ascii_correct :
    (∀ name : List Char, ASCIIName name →
        ∀ v ∈ name_to_numbers name, 1 ≤ v ∧ v ≤ 26) ∧
    letter_to_number 'a' = 1 ∧
    letter_to_number 'A' = 1 ∧
    letter_to_number 'z' = 26 ∧
    (∀ name : List Char,
        (name_to_numbers name).length = (name.filter pyIsAlpha).length) ∧
    (∀ (c : Char) (name : List Char), pyIsAlpha c = false →
        name_to_numbers (c :: name) = name_to_numbers name) ∧
    (∀ (c : Char) (name : List Char), pyIsAlpha c = true →
        name_to_numbers (c :: name) =
          letter_to_number c :: name_to_numbers name) := by
  refine ⟨?_, by decide, by decide, by decide, ?_, ?_, ?_⟩
  · intro name hascii v hv
    rw [name_to_numbers] at hv
    obtain ⟨c, hc, rfl⟩ := List.mem_map.mp hv
    have hcn : c ∈ name := List.mem_of_mem_filter hc
    have halpha : pyIsAlpha c = true := List.of_mem_filter hc
    have hle : c.toNat ≤ 127 := hascii c hcn
    rw [pyIsAlpha] at halpha
    simp only [pyIsAlphaNat, Bool.or_eq_true, Bool.and_eq_true,
      decide_eq_true_eq, beq_iff_eq, bne_iff_ne] at halpha
    simp only [letter_to_number, pyUpperNat]
    split_ifs with h1 h2 <;> omega
  · intro name
    simp [name_to_numbers]
  · intro c name h
    simp [name_to_numbers, List.filter_cons, h]
  · intro c name h
    simp [name_to_numbers, List.filter_cons, h]

/-- Witness for C4's amended theorem at the ASCII name "b". -/
theorem name_encoder_ascii_correct_witness : 1 ≤ (2 : ℤ) ∧ (2 : ℤ) ≤ 26 :=
  name_encoder_ascii_correct.1 ['b'] (by decide) 2 (by decide)

/-- C4 counterexample: the claim as stated fails on the code.
Python's `isalpha` accepts the Latin-1 letter é (code point 233), and
`letter_to_number` maps it to `ord(chr(201)) - 65 + 1 = 137`, outside
[1, 26]. -/
theorem letter_to_number_eacute_out_of_range :
    pyIsAlpha 'é' = true ∧
    name_to_numbers ['é'] = [137] ∧
    ¬(∀ v ∈ name_to_numbers ['é'], 1 ≤ v ∧ v ≤ 26) := by
  decide

/-- C5: a name with no alphabetic characters encodes to the empty
sequence, on which `generate_fractal` substitutes the fallback `[1]`;
the list whose length is divided by is always non-empty, so the
division-by-zero branch in `c_real`/`c_imag` is unreachable. -/
theorem empty_sequence_fallback_safe :
    ∀ (name : List Char) (nums : List ℤ), Latin1 name →
      (∀ c ∈ name, pyIsAlpha c = false) →
      name_to_numbers name = [] ∧
      effectiveNums (name_to_numbers name) = [1] ∧
      0 < (effectiveNums nums).length := by
  intro name nums _ hna
  have hnil : name_to_numbers name = [] := by
    rw [name_to_numbers, List.map_eq_nil_iff]
    rw [List.filter_eq_nil_iff]
    intro c hc
    simp [hna c hc]
  refine ⟨hnil, by rw [hnil, effectiveNums]; simp, ?_⟩
  rw [effectiveNums]
  split
  · simp
  · rename_i h
    exact List.length_pos.mpr h

/-- Witness for C5 at the all-non-alphabetic name "1". -/
theorem empty_sequence_fallback_safe_witness :
    name_to_numbers ['1'] = [] ∧
    effectiveNums (name_to_numbers ['1']) = [1] ∧
    0 < (effectiveNums []).length :=
  empty_sequence_fallback_safe ['1'] [] (by decide) (by decide)

/-- C6 (amended): for a name with no alphabetic characters, `main`
passes the original empty sequence — not the `[1]` fallback, which is
local to `generate_fractal` — to `dynamic_color_map`, so `base_color`
is 0. -/
theorem color_map_base_color_nonalpha :
    ∀ name : List Char, Latin1 name →
      (∀ c ∈ name, pyIsAlpha c = false) →
      mainCmapArg name = [] ∧ base_color (mainCmapArg name) = 0 := by
  intro name hlat hna
  have hnil : name_to_numbers name = [] :=
    (empty_sequence_fallback_safe name [] hlat hna).1
  constructor
  · rw [mainCmapArg, mainNumbers, hnil]
  · rw [mainCmapArg, mainNumbers, hnil]
    decide

/-- Witness for C6's amended theorem at the name "#". -/
theorem color_map_base_color_nonalpha_witness :
    mainCmapArg ['#'] = [] ∧ base_color (mainCmapArg ['#']) = 0 :=
  color_map_base_color_nonalpha ['#'] (by decide) (by decide)

/-- C6 counterexample: for the all-non-alphabetic name "123", the
sequence reaching the Color Gradient Builder is empty and `base_color`
is 0, not 1 as the claim states. -/
theorem base_color_nonalpha_ne_one :
    mainCmapArg ['1', '2', '3'] = [] ∧
    base_color (mainCmapArg ['1', '2', '3']) = 0 ∧
    base_color (mainCmapArg ['1', '2', '3']) ≠ 1 := by
  decide

/-- C7: the reverse-order summation in `scale_y` is order-invariant, so
`scale_y = (sum % 10 + 1) * 1.5 = scale_x * 1.5`. -/
theorem reverse_sum_scale_y (nums : List ℤ) :
    nums.reverse.sum = nums.sum ∧
    scale_y nums = ((scale_x nums : ℤ) : ℝ) * 1.5 := by
  constructor
  · exact List.sum_reverse nums
  · rw [scale_y, scale_x, List.sum_reverse]

/-! ## Fractal Field Generator (source lines 34–49) -/

/-- `np.linspace(a, b, num)` at index `i`: `num` evenly spaced values
from `a` to `b` inclusive; with `num = 1` numpy returns `[a]`. -/
noncomputable def linspace (a b : ℝ) (num : ℕ) (i : ℕ) : ℝ :=
  if num ≤ 1 then a else a + (b - a) * i / ((num : ℝ) - 1)

/-- The initial grid `Z = X + 1j * Y` (source lines 34–37): with the
default meshgrid indexing, row `j` column `i` holds `x[i] + 1j * y[j]`
where `x = linspace(-scale_x, scale_x, size)` and
`y = linspace(-scale_y, scale_y, size)`. -/
noncomputable def gridZ (p : FieldParams) (size : ℕ) (j i : ℕ) : ℂ :=
  ((linspace (-(p.scale_x : ℝ)) (p.scale_x : ℝ) size i : ℝ) : ℂ) +
    Complex.I * ((linspace (-p.scale_y) p.scale_y size j : ℝ) : ℂ)

/-- `C = complex(c_real / 10, c_imag / 10)` (source line 40). -/
noncomputable def Cconst (p : FieldParams) : ℂ :=
  ⟨p.c_real / 10, p.c_imag / 10⟩

/-- One loop body applied to one cell (source lines 44–46):
`Z = Z**2 + C + extra_term`, then `Z += np.sin(Z) * noise_factor`, then
`Z = np.where(abs(Z) > 1000, 1000, Z)`. -/
noncomputable def fractalStep (p : FieldParams) (z : ℂ) : ℂ :=
  let z1 := z ^ 2 + Cconst p + (p.extra_term : ℂ)
  let z2 := z1 + Complex.sin z1 * (p.noise_factor : ℂ)
  if 1000 < Complex.abs z2 then 1000 else z2

/-- The loop of source lines 43–47 at one cell: after `n` iterations,
the cell's complex value and its accumulated count from
`fractal += abs(Z) < 1000` (evaluated on the post-clamp value). -/
noncomputable def cellIter (p : FieldParams) (z0 : ℂ) : ℕ → ℂ × ℤ
  | 0 => (z0, 0)
  | n + 1 =>
    let prev := cellIter p z0 n
    let z := fractalStep p prev.1
    (z, prev.2 + if Complex.abs z < 1000 then 1 else 0)

/-- The returned `fractal` array (source lines 41–49) for given Field
Parameters: a `size × size` grid of counts. -/
noncomputable def fractalField (p : FieldParams) (size iterations : ℕ) :
    Fin size → Fin size → ℤ :=
  fun j i => (cellIter p (gridZ p size j i) iterations).2

/-- `generate_fractal` (source lines 16–49): substitute the `[1]`
fallback for an empty list, derive the parameters, iterate the grid. -/
noncomputable def generate_fractal (nums : List ℤ) (size iterations : ℕ) :
    Fin size → Fin size → ℤ :=
  fractalField (deriveParams (effectiveNums nums)) size iterations

/-! ## Specification-side formulation of the field generator

The spec describes each round as three transformations in lock-step
(`Z ← Z² + C + extra_term`, `Z ← Z + sin(Z) × noise_factor`, clamp), and
the field as the count, over all rounds, of post-clamp magnitudes
strictly below 1000. -/

/-- Spec: `Z ← Z² + C + extra_term`. -/
noncomputable def specSquare (p : FieldParams) (z : ℂ) : ℂ :=
  z ^ 2 + Cconst p + (p.extra_term : ℂ)

/-- Spec: `Z ← Z + sin(Z) × noise_factor`. -/
noncomputable def specNoise (p : FieldParams) (z : ℂ) : ℂ :=
  z + Complex.sin z * (p.noise_factor : ℂ)

/-- Spec: clamp any value whose magnitude exceeds 1000 to the real
value 1000. -/
noncomputable def specClamp (z : ℂ) : ℂ :=
  if 1000 < Complex.abs z then 1000 else z

/-- Spec: the cell value after `n` rounds. -/
noncomputable def specZ (p : FieldParams) (z0 : ℂ) : ℕ → ℂ
  | 0 => z0
  | n + 1 => specClamp (specNoise p (specSquare p (specZ p z0 n)))

/-- Spec: the escape count — 1 added for each round whose post-clamp
magnitude is strictly below 1000. -/
noncomputable def specEscapeCount (p : FieldParams) (z0 : ℂ)
    (iterations : ℕ) : ℤ :=
  ∑ m in Finset.range iterations,
    if Complex.abs (specZ p z0 (m + 1)) < 1000 then 1 else 0

/-- Spec: the field as described in the specification. -/
noncomputable def fractalFieldSpec (p : FieldParams) (size iterations : ℕ) :
    Fin size → Fin size → ℤ :=
  fun j i =>
    specEscapeCount p
      ⟨linspace (-(p.scale_x : ℝ)) (p.scale_x : ℝ) size i,
        linspace (-p.scale_y) p.scale_y size j⟩ iterations

theorem fractalStep_eq_spec (p : FieldParams) (z : ℂ) :
    fractalStep p z = specClamp (specNoise p (specSquare p z)) := rfl

theorem cellIter_fst (p : FieldParams) (z0 : ℂ) :
    ∀ n : ℕ, (cellIter p z0 n).1 = specZ p z0 n
  | 0 => rfl
  | n + 1 => by
    show fractalStep p (cellIter p z0 n).1 = specZ p z0 (n + 1)
    rw [cellIter_fst p z0 n, specZ, fractalStep_eq_spec]

theorem cellIter_snd (p : FieldParams) (z0 : ℂ) :
    ∀ n : ℕ, (cellIter p z0 n).2 = specEscapeCount p z0 n
  | 0 => by simp [cellIter, specEscapeCount]
  | n + 1 => by
    show (cellIter p z0 n).2 +
        (if Complex.abs (fractalStep p (cellIter p z0 n).1) < 1000
          then 1 else 0) = specEscapeCount p z0 (n + 1)
    rw [cellIter_snd p z0 n, cellIter_fst p z0 n]
    show specEscapeCount p z0 n +
        (if Complex.abs (specZ p z0 (n + 1)) < 1000 then 1 else 0) = _
    rw [specEscapeCount, specEscapeCount, Finset.sum_range_succ]

/-- C1: `generate_fractal`'s grid is `Z₀ = x + iy` with `x`, `y`
linearly spaced over `[-scale_x, scale_x]` and `[-scale_y, scale_y]`,
`C = complex(c_real/10, c_imag/10)`, each round applies
`Z ← Z² + C + extra_term`, then `Z ← Z + sin(Z)·noise_factor`, then
collapses any cell of magnitude above 1000 to the real value 1000
(whole-value collapse, not a scaling), and the field adds 1 per round
exactly when the post-clamp magnitude is strictly below 1000. -/
theorem fractal_field_refines_spec (p : FieldParams) (size iterations : ℕ)
    (hs : 0 < size) (hi : 0 < iterations) :
    (∀ j i : Fin size, gridZ p size j i =
        ⟨linspace (-(p.scale_x : ℝ)) (p.scale_x : ℝ) size i,
          linspace (-p.scale_y) p.scale_y size j⟩) ∧
    Cconst p = ⟨p.c_real / 10, p.c_imag / 10⟩ ∧
    (∀ z : ℂ, 1000 < Complex.abs z → specClamp z = ⟨1000, 0⟩) ∧
    (∀ z : ℂ, Complex.abs z ≤ 1000 → specClamp z = z) ∧
    fractalField p size iterations = fractalFieldSpec p size iterations := by
  refine ⟨?_, rfl, ?_, ?_, ?_⟩
  · intro j i
    apply Complex.ext
    · simp [gridZ]
    · simp [gridZ]
  · intro z hz
    rw [specClamp, if_pos hz]
    apply Complex.ext
    · simp
    · simp
  · intro z hz
    rw [specClamp, if_neg (not_lt.mpr hz)]
  · funext j i
    show (cellIter p (gridZ p size j i) iterations).2 = _
    rw [cellIter_snd]
    congr 1
    apply Complex.ext
    · simp [gridZ]
    · simp [gridZ]

/-- Witness for C1 at a concrete parameter tuple, `size = 2`,
`iterations = 1`. -/
theorem fractal_field_refines_spec_witness :
    0 < 2 ∧ 0 < 1 ∧
    fractalField ⟨4, 6, 1, 1, 0, 0⟩ 2 1 = fractalFieldSpec ⟨4, 6, 1, 1, 0, 0⟩ 2 1 :=
  ⟨by decide, by decide,
    (fractal_field_refines_spec ⟨4, 6, 1, 1, 0, 0⟩ 2 1 (by decide)
        (by decide)).2.2.2.2⟩

theorem cellIter_count_bounds (p : FieldParams) (z0 : ℂ) :
    ∀ n : ℕ, 0 ≤ (cellIter p z0 n).2 ∧ (cellIter p z0 n).2 ≤ (n : ℤ)
  | 0 => by simp [cellIter]
  | n + 1 => by
    obtain ⟨h0, h1⟩ := cellIter_count_bounds p z0 n
    have hstep : (cellIter p z0 (n + 1)).2 = (cellIter p z0 n).2 +
        (if Complex.abs (fractalStep p (cellIter p z0 n).1) < 1000
          then 1 else 0) := rfl
    rw [hstep]
    constructor
    · split_ifs <;> omega
    · split_ifs <;> push_cast <;> omega

/-- C2: every cell of the Fractal Field is an integer in
`[0, iterations]`, for every input list and positive size and
iteration count. -/
theorem fractal_field_counts_bounded (nums : List ℤ)
    (size iterations : ℕ) (hs : 0 < size) (hi : 0 < iterations)
    (j i : Fin size) :
    0 ≤ generate_fractal nums size iterations j i ∧
    generate_fractal nums size iterations j i ≤ (iterations : ℤ) :=
  cellIter_count_bounds _ _ iterations

/-- Witness for C2 at `nums = [1]`, `size = 1`, `iterations = 1`. -/
theorem fractal_field_counts_bounded_witness :
    0 ≤ generate_fractal [1] 1 1 0 0 ∧
    generate_fractal [1] 1 1 0 0 ≤ (1 : ℤ) :=
  fractal_field_counts_bounded [1] 1 1 (by decide) (by decide) 0 0

/-! ## Pipeline determinism and the `main` dataflow -/

/-- One run of the per-name pipeline of `main` (source lines 99–104):
the Field Parameters actually used (after the internal fallback) and
the Fractal Field, at the default `size = 500`, `iterations = 100`. -/
noncomputable def pipelineRun (name : List Char) :
    FieldParams × (Fin 500 → Fin 500 → ℤ) :=
  (deriveParams (effectiveNums (name_to_numbers name)),
    generate_fractal (name_to_numbers name) 500 100)

/-- C9: the pipeline is a deterministic, state-free function of the
name: two runs on the same name agree, and more generally identical
Numeric Sequences yield identical Field Parameters and Fractal Field. -/
theorem pipeline_deterministic :
    (∀ name : List Char, pipelineRun name = pipelineRun name) ∧
    (∀ n1 n2 : List Char, name_to_numbers n1 = name_to_numbers n2 →
        pipelineRun n1 = pipelineRun n2) := by
  refine ⟨fun _ => rfl, fun n1 n2 h => ?_⟩
  rw [pipelineRun, pipelineRun, h]

/-- Witness for C9: the names "a!" and "a" have the same Numeric
Sequence, hence the same run. -/
theorem pipeline_deterministic_witness :
    pipelineRun ['a', '!'] = pipelineRun ['a'] :=
  pipeline_deterministic.2 ['a', '!'] ['a'] (by decide)

/-- C10: the `[1]` fallback inside `generate_fractal` rebinds only the
local parameter, so `main` later passes the original (possibly empty)
sequence to `dynamic_color_map`: the colormap argument is exactly
`name_to_numbers name`, the field uses the fallback-derived parameters,
and for an empty sequence the colormap argument differs from the
fallback. -/
theorem caller_list_unchanged (name : List Char) :
    mainCmapArg name = name_to_numbers name ∧
    generate_fractal (mainNumbers name) 500 100 =
      fractalField (deriveParams (effectiveNums (name_to_numbers name))) 500 100 ∧
    (name_to_numbers name = [] →
      mainCmapArg name ≠ effectiveNums (name_to_numbers name)) := by
  refine ⟨rfl, rfl, fun h => ?_⟩
  rw [mainCmapArg, mainNumbers, h, effectiveNums]
  simp

/-- Witness for C10 at the name "1", whose Numeric Sequence is empty. -/
theorem caller_list_unchanged_witness :
    mainCmapArg ['1'] ≠ effectiveNums (name_to_numbers ['1']) :=
  (caller_list_unchanged ['1']).2.2 (by decide)

/-! ## Color Gradient Builder (source lines 51–66)

Strings are modelled as `List Char`.  Python's format spec `{n:02x}`
prints `n` in lowercase hexadecimal, zero-padded to at least two
digits; every formatted value here is `% 256` of a non-negative number
(or half of one), so it lies in `[0, 255]` and formats to exactly two
digits.  `int(base_color * 0.5)`: `base_color ∈ [0, 255]`, so
`base_color * 0.5` is exact in binary floating point and truncation
equals division by 2. -/

/-- The lowercase hexadecimal digit for `k`, as selected by Python's
`x` format type: code point 48 + k for digits, 87 + k (so 'a'..'f') for
10 ≤ k < 16. -/
def hexDigit (k : ℕ) : Char :=
  if k < 10 then Char.ofNat (48 + k)
  else if k < 16 then Char.ofNat (87 + k)
  else '0'

/-- Python `f"{n:02x}"` for `0 ≤ n < 256`: exactly two lowercase hex
digits. -/
def hex2 (n : ℕ) : List Char :=
  [hexDigit (n / 16), hexDigit (n % 16)]

/-- The `gradient_colors` list built by `dynamic_color_map`
(source lines 56–66): five entries derived from `base_color`, then four
fixed constants. -/
def gradient_colors (nums : List ℤ) : List (List Char) :=
  [ '#' :: (hex2 ((base_color nums).toNat / 2) ++ ['0', '0'] ++
      hex2 (base_color nums).toNat),
    ['#', '4', 'B', '0', '0'] ++ hex2 (((base_color nums + 80) % 256).toNat),
    ['#', '6', 'A', '0', 'D'] ++ hex2 (((base_color nums + 60) % 256).toNat),
    ['#', '8', '0', '0', '0'] ++ hex2 (((base_color nums + 40) % 256).toNat),
    ['#', '0', '0', '0', '0'] ++ hex2 (((base_color nums + 100) % 256).toNat),
    ['#', '4', '6', '8', '2', 'B', '4'],
    ['#', '8', '7', 'C', 'E', 'E', 'B'],
    ['#', '0', '0', '0', '0', '8', 'B'],
    ['#', 'E', '6', 'E', '6', 'F', 'A'] ]

/-- A hexadecimal digit character (either case), as accepted in an RGB
hex triplet. -/
def IsHexDigit (c : Char) : Prop :=
  (48 ≤ c.toNat ∧ c.toNat ≤ 57) ∨ (65 ≤ c.toNat ∧ c.toNat ≤ 70) ∨
    (97 ≤ c.toNat ∧ c.toNat ≤ 102)

instance (c : Char) : Decidable (IsHexDigit c) := by
  unfold IsHexDigit
  infer_instance

/-- A well-formed `#RRGGBB` string: a `#` followed by exactly six hex
digits. -/
def IsHexColor (s : List Char) : Prop :=
  s.length = 7 ∧ s.headI = '#' ∧ ∀ c ∈ s.drop 1, IsHexDigit c

instance (s : List Char) : Decidable (IsHexColor s) := by
  unfold IsHexColor
  infer_instance

theorem isHexDigit_hexDigit (k : ℕ) : IsHexDigit (hexDigit k) := by
  by_cases h : k < 16
  · interval_cases k <;> decide
  · rw [hexDigit, if_neg (by omega), if_neg h]
    decide

theorem isHexColor_hash_hex2_hex2 (m n : ℕ) :
    IsHexColor ('#' :: (hex2 m ++ ['0', '0'] ++ hex2 n)) := by
  refine ⟨rfl, rfl, ?_⟩
  intro c hc
  simp only [hex2, List.cons_append, List.nil_append, List.drop_succ_cons,
    List.drop_zero, List.mem_cons, List.mem_append, List.not_mem_nil] at hc
  rcases hc with h | h | h | h | h | h | h
  all_goals first
    | (subst h; exact isHexDigit_hexDigit _)
    | (subst h; decide)
    | cases h

theorem isHexColor_prefix4_hex2 (c1 c2 c3 c4 : Char) (n : ℕ)
    (h1 : IsHexDigit c1) (h2 : IsHexDigit c2) (h3 : IsHexDigit c3)
    (h4 : IsHexDigit c4) :
    IsHexColor (('#' :: [c1, c2, c3, c4]) ++ hex2 n) := by
  refine ⟨by simp [hex2], rfl, ?_⟩
  intro c hc
  simp only [hex2, List.cons_append, List.nil_append, List.drop_succ_cons,
    List.drop_zero, List.mem_cons, List.not_mem_nil] at hc
  rcases hc with h | h | h | h | h | h | h
  · exact h ▸ h1
  · exact h ▸ h2
  · exact h ▸ h3
  · exact h ▸ h4
  · exact h ▸ isHexDigit_hexDigit _
  · exact h ▸ isHexDigit_hexDigit _
  · cases h

/-- C8: the gradient always has exactly 9 entries, each a `#` followed
by six hex digits; the first five are functions of `base_color` alone
and the last four are fixed constants. -/
theorem gradient_palette_wellformed (nums : List ℤ) :
    (gradient_colors nums).length = 9 ∧
    (∀ s ∈ gradient_colors nums, IsHexColor s) ∧
    (gradient_colors nums).drop 5 =
      [['#', '4', '6', '8', '2', 'B', '4'],
        ['#', '8', '7', 'C', 'E', 'E', 'B'],
        ['#', '0', '0', '0', '0', '8', 'B'],
        ['#', 'E', '6', 'E', '6', 'F', 'A']] ∧
    (∀ nums2 : List ℤ, base_color nums = base_color nums2 →
        gradient_colors nums = gradient_colors nums2) := by
  refine ⟨rfl, ?_, rfl, ?_⟩
  · intro s hs
    simp only [gradient_colors, List.mem_cons, List.not_mem_nil] at hs
    rcases hs with h | h | h | h | h | h | h | h | h | h
    · exact h ▸ isHexColor_hash_hex2_hex2 _ _
    · exact h ▸ isHexColor_prefix4_hex2 '4' 'B' '0' '0' _
        (by decide) (by decide) (by decide) (by decide)
    · exact h ▸ isHexColor_prefix4_hex2 '6' 'A' '0' 'D' _
        (by decide) (by decide) (by decide) (by decide)
    · exact h ▸ isHexColor_prefix4_hex2 '8' '0' '0' '0' _
        (by decide) (by decide) (by decide) (by decide)
    · exact h ▸ isHexColor_prefix4_hex2 '0' '0' '0' '0' _
        (by decide) (by decide) (by decide) (by decide)
    · exact h ▸ (by decide : IsHexColor ['#', '4', '6', '8', '2', 'B', '4'])
    · exact h ▸ (by decide : IsHexColor ['#', '8', '7', 'C', 'E', 'E', 'B'])
    · exact h ▸ (by decide : IsHexColor ['#', '0', '0', '0', '0', '8', 'B'])
    · exact h ▸ (by decide : IsHexColor ['#', 'E', '6', 'E', '6', 'F', 'A'])
    · cases h
  · intro nums2 h
    rw [gradient_colors, gradient_colors, h]

/-- Witness for C8 at `nums = []` (`base_color = 0`): the first entry
is the literal `#000000` and is a well-formed color. -/
theorem gradient_palette_wellformed_witness :
    (gradient_colors []).length = 9 ∧
    IsHexColor ['#', '0', '0', '0', '0', '0', '0'] :=
  ⟨(gradient_palette_wellformed []).1,
    (gradient_palette_wellformed []).2.1
      ['#', '0', '0', '0', '0', '0', '0'] (by decide)⟩

end FractalName
